import Mathlib

/-!
Verification of the Kalshi client scripts (kalshi_complete.py and
kalshi_simple_dashboard.py) against their natural-language specification.

The Python code is shallowly embedded: each client operation becomes a pure
Lean function over an explicit model of the server.  HTTP interaction is
modelled by a trace of responses consumed in order (one trace element per
outbound request), time is modelled by rational-valued clocks threaded
through the dashboard client state, and user-facing output (print,
st.warning, st.error) is modelled by an event log returned alongside the
result.
-/

namespace Kalshi

/-! ## kalshi_complete.py: pagination (KalshiClient.get_markets) -/

/-- One JSON page returned by the /markets endpoint, as read by
`get_markets`: `data.get('markets', [])` and `data.get('cursor')`.
Market items are kept abstract (the loop never inspects them). -/
structure Page (α : Type) where
  markets : List α
  cursor : Option String
deriving Repr, DecidableEq

/-- Python truthiness of the cursor value: `None` and the empty string are
falsy (the source tests `if cursor:` and `if not cursor`). -/
def truthyCursor : Option String → Bool
  | none => false
  | some c => !(c = "")

/-- Continuation test of the pagination loop, from the source line
`if not cursor or len(markets) < limit: break`: the loop fetches another
page iff the cursor is truthy and the page was not short. -/
def pageContinues (limit : Nat) (p : Page α) : Bool :=
  truthyCursor p.cursor && decide (limit ≤ p.markets.length)

/-- Embedding of the `while True:` loop of `KalshiClient.get_markets`.
The trace lists, in order, what `self.get('/markets', params)` returns on
each call (`none` = the request failed and `get` returned `None`).
Returns the accumulated market list together with the number of requests
issued.  An exhausted trace (never reached in the scenarios proved below)
yields no further requests. -/
def get_markets_run (limit : Nat) : List (Option (Page α)) → List α × Nat
  | [] => ([], 0)
  | none :: _ => ([], 1)
  | some p :: rest =>
      if pageContinues limit p then
        let o := get_markets_run limit rest
        (p.markets ++ o.1, o.2 + 1)
      else
        (p.markets, 1)

/-- The list returned by `get_markets` (first component of the run). -/
def get_markets (limit : Nat) (trace : List (Option (Page α))) : List α :=
  (get_markets_run limit trace).1

/-- The number of requests `get_markets` issues on a trace. -/
def get_markets_requests (limit : Nat) (trace : List (Option (Page α))) : Nat :=
  (get_markets_run limit trace).2

end Kalshi

namespace Kalshi

theorem get_markets_run_cons_continue {α : Type} (limit : Nat) (p : Page α)
    (rest : List (Option (Page α))) (h : pageContinues limit p = true) :
    get_markets_run limit (some p :: rest) =
      ((p.markets ++ (get_markets_run limit rest).1),
       (get_markets_run limit rest).2 + 1) := by
  simp [get_markets_run, h]

theorem get_markets_run_cons_stop {α : Type} (limit : Nat) (p : Page α)
    (rest : List (Option (Page α))) (h : pageContinues limit p = false) :
    get_markets_run limit (some p :: rest) = (p.markets, 1) := by
  simp [get_markets_run, h]

/-- Core pagination lemma: while every page of `ps` satisfies the
continuation test, all of them are fetched and their items accumulated,
and the run continues into the remaining trace. -/
theorem get_markets_run_append {α : Type} (limit : Nat) (ps : List (Page α))
    (rest : List (Option (Page α)))
    (hcont : ∀ p ∈ ps, pageContinues limit p = true) :
    get_markets_run limit (ps.map some ++ rest) =
      ((ps.map Page.markets).flatten ++ (get_markets_run limit rest).1,
       (get_markets_run limit rest).2 + ps.length) := by
  induction ps with
  | nil => simp
  | cons p ps ih =>
      have hp : pageContinues limit p = true := hcont p (by simp)
      have hps : ∀ q ∈ ps, pageContinues limit q = true := by
        intro q hq; exact hcont q (by simp [hq])
      simp only [List.map_cons, List.cons_append]
      rw [get_markets_run_cons_continue limit p _ hp, ih hps]
      simp [List.flatten]
      omega

/-- C1: for a trace of pages whose every non-final page carries a truthy
cursor and is not short, ending in a page with a null cursor,
`get_markets` returns the concatenation of all pages in order and issues
exactly one request per page (it stops exactly at the null-cursor page,
fetching nothing from the rest of the trace). -/
theorem get_markets_paginates {α : Type} (limit : Nat) (ps : List (Page α))
    (plast : Page α) (rest : List (Option (Page α)))
    (hcont : ∀ p ∈ ps, pageContinues limit p = true)
    (hlast : plast.cursor = none) :
    get_markets limit (ps.map some ++ some plast :: rest) =
        ((ps.map Page.markets).flatten ++ plast.markets) ∧
      get_markets_requests limit (ps.map some ++ some plast :: rest) =
        ps.length + 1 := by
  have hstop : pageContinues limit plast = false := by
    simp [pageContinues, truthyCursor, hlast]
  have h := get_markets_run_append limit ps (some plast :: rest) hcont
  rw [get_markets_run_cons_stop limit plast rest hstop] at h
  constructor
  · simp [get_markets, h]
  · simp [get_markets_requests, h]
    omega

/-- Witness for C1: two full pages with cursors then a null-cursor page. -/
theorem get_markets_paginates_witness :
    get_markets 2 [some ⟨[1, 2], some "c1"⟩, some ⟨[3, 4], some "c2"⟩,
        some (⟨[5], none⟩ : Page Nat)] = [1, 2, 3, 4, 5] ∧
      get_markets_requests 2 [some ⟨[1, 2], some "c1"⟩, some ⟨[3, 4], some "c2"⟩,
        some (⟨[5], none⟩ : Page Nat)] = 3 := by
  have h := get_markets_paginates 2
    [⟨[1, 2], some "c1"⟩, ⟨[3, 4], some "c2"⟩] (⟨[5], none⟩ : Page Nat) []
    (by decide) rfl
  simpa using h

/-- C8: if the page fetch fails (`get` returns `None`) after `k` pages
succeeded and continued, `get_markets` returns the items accumulated from
those first `k` pages as a normal list (possibly empty), and counts the
failed request. -/
theorem get_markets_partial_on_failure {α : Type} (limit : Nat)
    (ps : List (Page α)) (rest : List (Option (Page α)))
    (hcont : ∀ p ∈ ps, pageContinues limit p = true) :
    get_markets limit (ps.map some ++ none :: rest) =
        (ps.map Page.markets).flatten ∧
      get_markets_requests limit (ps.map some ++ none :: rest) =
        ps.length + 1 := by
  have h := get_markets_run_append limit ps (none :: rest) hcont
  have hnone : get_markets_run limit (none :: rest) = (([] : List α), 1) := rfl
  rw [hnone] at h
  constructor
  · simp [get_markets, h]
  · simp [get_markets_requests, h]
    omega

/-- Witness for C8: one successful full page, then a failed fetch. -/
theorem get_markets_partial_on_failure_witness :
    get_markets 2 [some (⟨[7, 8], some "c1"⟩ : Page Nat), none] = [7, 8] ∧
      get_markets_requests 2 [some (⟨[7, 8], some "c1"⟩ : Page Nat), none] = 2 := by
  have h := get_markets_partial_on_failure 2 [(⟨[7, 8], some "c1"⟩ : Page Nat)] []
    (by decide)
  simpa using h

end Kalshi

namespace Dashboard

/-! ## kalshi_simple_dashboard.py: SimpleKalshiClient.safe_request

Time is modelled with rational-valued clocks.  The client state holds the
current wall-clock time (`now`) and the `last_request` field set in
`__init__` to 0 and updated by `self.last_request = time.time()` after a
successful response.  Each HTTP attempt is one element of a trace: its
network latency and the response the server gives. -/

/-- Mutable state of `SimpleKalshiClient` together with the wall clock. -/
structure ClockState where
  now : ℚ
  last_request : ℚ
deriving Repr, DecidableEq

/-- Outcome of one `self.session.get` attempt: a 200 body, a 429
rate-limit status, or an error (a transport exception, or a status that
makes `raise_for_status` raise). -/
inductive HttpResp (β : Type) where
  | ok (body : β)
  | status429
  | errResp (msg : String)
deriving Repr, DecidableEq

/-- One trace element: how long the attempt takes on the wire and what
the server answers. -/
structure Attempt (β : Type) where
  latency : ℚ
  resp : HttpResp β
deriving Repr, DecidableEq

/-- Observable events of a `safe_request` call, in order: the pacing
sleep (`time.sleep(0.5 - ...)`), the dispatch of an HTTP request at a
given time, the `st.warning` on a 429, the backoff sleep
(`time.sleep(3)`), and the `st.error` report in the except branch. -/
inductive Ev where
  | sleepPacing (d : ℚ)
  | dispatch (t : ℚ)
  | warn429
  | sleepBackoff (d : ℚ)
  | errorReport (msg : String)
deriving Repr, DecidableEq

/-- Result of running `safe_request` against a finite trace.  `finished`
is false when the trace was exhausted with the call still running (used
to exhibit nontermination: no finite trace of 429s lets it return). -/
structure RunOut (β : Type) where
  result : Option β
  finished : Bool
  state : ClockState
  events : List Ev
deriving Repr, DecidableEq

/-- The 0.5-second minimum spacing between requests, from the source
comment `# 0.5 second delay` and the literal `0.5` in `safe_request`. -/
def pacingGap : ℚ := 1/2

/-- Embedding of `SimpleKalshiClient.safe_request`.  Per attempt: read the
clock; if less than 0.5 s elapsed since `last_request`, sleep the
remainder; dispatch the request; on 429 warn, sleep 3 s and recurse on
the same endpoint and params; on success set `last_request` and return
the body; on an exception report the error once and return `none`. -/
def safe_request_run {β : Type} (s : ClockState) : List (Attempt β) → RunOut β
  | [] => ⟨none, false, s, []⟩
  | a :: rest =>
      let pacing : List Ev :=
        if s.now - s.last_request < pacingGap then
          [Ev.sleepPacing (pacingGap - (s.now - s.last_request))]
        else []
      let t : ℚ :=
        if s.now - s.last_request < pacingGap then s.last_request + pacingGap
        else s.now
      let arrival : ℚ := t + a.latency
      match a.resp with
      | HttpResp.ok b =>
          ⟨some b, true, ⟨arrival, arrival⟩, pacing ++ [Ev.dispatch t]⟩
      | HttpResp.status429 =>
          let o := safe_request_run ⟨arrival + 3, s.last_request⟩ rest
          ⟨o.result, o.finished, o.state,
            pacing ++ [Ev.dispatch t, Ev.warn429, Ev.sleepBackoff 3] ++ o.events⟩
      | HttpResp.errResp m =>
          ⟨none, true, ⟨arrival, s.last_request⟩,
            pacing ++ [Ev.dispatch t, Ev.errorReport ("API Error: " ++ m)]⟩

/-- Number of HTTP requests dispatched during a run. -/
def dispatchCount (evs : List Ev) : Nat :=
  evs.countP (fun e => match e with | Ev.dispatch _ => true | _ => false)

/-- Number of `st.warning` rate-limit messages during a run. -/
def warnCount (evs : List Ev) : Nat :=
  evs.countP (fun e => match e with | Ev.warn429 => true | _ => false)

/-- Number of `st.error` reports during a run. -/
def errorCount (evs : List Ev) : Nat :=
  evs.countP (fun e => match e with | Ev.errorReport _ => true | _ => false)

/-- The backoff sleeps of a run (durations of the `time.sleep(3)` site). -/
def backoffSleeps (evs : List Ev) : List ℚ :=
  evs.filterMap (fun e => match e with | Ev.sleepBackoff d => some d | _ => none)

/-- C4: under a persistent rate-limit condition, `safe_request` never
returns.  For every `n`, a trace of `n` consecutive 429 responses is
wholly consumed (one dispatched request per response) without the call
finishing: no finite run of 429s lets it return, so the retries are
unbounded. -/
theorem persistent_429_unbounded {β : Type} (n : Nat) (s : ClockState) (lat : ℚ) :
    (safe_request_run (β := β) s
        (List.replicate n ⟨lat, HttpResp.status429⟩)).finished = false ∧
      dispatchCount (safe_request_run (β := β) s
        (List.replicate n ⟨lat, HttpResp.status429⟩)).events = n := by
  induction n generalizing s with
  | zero => simp [safe_request_run, dispatchCount]
  | succ n ih =>
      rw [List.replicate_succ]
      have h := ih ⟨(if s.now - s.last_request < pacingGap
        then s.last_request + pacingGap else s.now) + lat + 3, s.last_request⟩
      simp only [safe_request_run]
      refine ⟨h.1, ?_⟩
      unfold dispatchCount at h ⊢
      simp [List.countP_append, List.countP_cons, h.2]

/-- Counterexample to C2: from the initial state, two 429 responses
followed by a 200 make `safe_request` dispatch three requests — two
retries for one original request — so the retry count per original
request is not bounded by one, although the final result is the
successful body. -/
theorem retry_not_at_most_one :
    (safe_request_run (⟨0, 0⟩ : ClockState)
        [⟨0, HttpResp.status429⟩, ⟨0, HttpResp.status429⟩,
         ⟨0, HttpResp.ok (42 : Nat)⟩]).result = some 42 ∧
      dispatchCount (safe_request_run (⟨0, 0⟩ : ClockState)
        [⟨0, HttpResp.status429⟩, ⟨0, HttpResp.status429⟩,
         ⟨0, HttpResp.ok (42 : Nat)⟩]).events = 3 ∧
      ¬ (dispatchCount (safe_request_run (⟨0, 0⟩ : ClockState)
        [⟨0, HttpResp.status429⟩, ⟨0, HttpResp.status429⟩,
         ⟨0, HttpResp.ok (42 : Nat)⟩]).events - 1 ≤ 1) := by
  norm_num [safe_request_run, pacingGap, dispatchCount, List.countP_cons,
    List.countP_append]

/-- C2 (amended): each 429 received makes `safe_request` warn, wait a
fixed 3 seconds, and retry the same request once more; in particular a
single 429 followed by a 200 results in exactly one retry (two dispatched
requests), one warning, one 3-second backoff sleep, and the successful
final result. -/
theorem retry_once_per_429 {β : Type} (s : ClockState) (l1 l2 : ℚ) (b : β) :
    (safe_request_run s [⟨l1, HttpResp.status429⟩,
        ⟨l2, HttpResp.ok b⟩]).result = some b ∧
      (safe_request_run s [⟨l1, HttpResp.status429⟩,
        ⟨l2, HttpResp.ok b⟩]).finished = true ∧
      dispatchCount (safe_request_run s [⟨l1, HttpResp.status429⟩,
        ⟨l2, HttpResp.ok b⟩]).events = 2 ∧
      warnCount (safe_request_run s [⟨l1, HttpResp.status429⟩,
        ⟨l2, HttpResp.ok b⟩]).events = 1 ∧
      backoffSleeps (safe_request_run s [⟨l1, HttpResp.status429⟩,
        ⟨l2, HttpResp.ok b⟩]).events = [3] := by
  refine ⟨by simp [safe_request_run], by simp [safe_request_run], ?_, ?_, ?_⟩ <;>
    simp only [safe_request_run, dispatchCount, warnCount, backoffSleeps] <;>
    split_ifs <;>
    simp [List.countP_append, List.countP_cons, List.filterMap_append]

/-- Every dispatch during a `safe_request` call happens no earlier than
0.5 s after the `last_request` timestamp the call started from (that
field is only rewritten on the final successful return). -/
theorem dispatch_paced {β : Type} (s : ClockState) (trace : List (Attempt β)) :
    ∀ t, Ev.dispatch t ∈ (safe_request_run s trace).events →
      s.last_request + pacingGap ≤ t := by
  induction trace generalizing s with
  | nil =>
      intro t ht
      simp [safe_request_run] at ht
  | cons a rest ih =>
      intro t ht
      rcases a with ⟨lat, resp⟩
      by_cases hc : s.now - s.last_request < pacingGap
      · cases resp with
        | ok b =>
            simp [safe_request_run, hc] at ht
            simp [ht]
        | status429 =>
            simp [safe_request_run, hc] at ht
            rcases ht with ht | ht
            · simp [ht]
            · exact ih ⟨s.last_request + pacingGap + lat + 3, s.last_request⟩ t ht
        | errResp m =>
            simp [safe_request_run, hc] at ht
            simp [ht]
      · have hge : s.last_request + pacingGap ≤ s.now := by
          linarith [not_lt.mp hc]
        cases resp with
        | ok b =>
            simp [safe_request_run, hc] at ht
            simpa [ht] using hge
        | status429 =>
            simp [safe_request_run, hc] at ht
            rcases ht with ht | ht
            · simpa [ht] using hge
            · exact ih ⟨s.now + lat + 3, s.last_request⟩ t ht
        | errResp m =>
            simp [safe_request_run, hc] at ht
            simpa [ht] using hge

/-- C3: pacing invariant.  `pacingGap` is the 0.5-second spacing; every
request dispatched by `safe_request` is at least 0.5 s after the recorded
last-request time, and when less than 0.5 s has elapsed at call time the
very first thing the call does is sleep exactly the remaining interval. -/
theorem safe_request_pacing {β : Type} (s : ClockState) (trace : List (Attempt β)) :
    pacingGap = 1/2 ∧
      (∀ t, Ev.dispatch t ∈ (safe_request_run s trace).events →
        s.last_request + pacingGap ≤ t) ∧
      (s.now - s.last_request < pacingGap → trace ≠ [] →
        (safe_request_run s trace).events.head? =
          some (Ev.sleepPacing (pacingGap - (s.now - s.last_request)))) := by
  refine ⟨rfl, dispatch_paced s trace, ?_⟩
  intro hc hne
  rcases trace with _ | ⟨⟨lat, resp⟩, rest⟩
  · exact absurd rfl hne
  · cases resp <;> simp [safe_request_run, hc]

/-- Witness for C3 at a concrete state 0.3 s after the last request: the
single dispatch occurs at time 0.5 = last_request + 0.5, and the call
first sleeps the remaining 0.2 s. -/
theorem safe_request_pacing_witness :
    ((⟨3/10, 0⟩ : ClockState).last_request + pacingGap ≤ 1/2 ∧
      (safe_request_run (⟨3/10, 0⟩ : ClockState)
          [⟨0, HttpResp.ok (42 : Nat)⟩]).events.head? =
        some (Ev.sleepPacing (pacingGap - ((3 : ℚ)/10 - 0)))) := by
  have hmem : Ev.dispatch (1/2) ∈ (safe_request_run (⟨3/10, 0⟩ : ClockState)
      [⟨0, HttpResp.ok (42 : Nat)⟩]).events := by
    norm_num [safe_request_run, pacingGap]
  refine ⟨?_, ?_⟩
  · exact (safe_request_pacing (⟨3/10, 0⟩ : ClockState)
      [⟨0, HttpResp.ok (42 : Nat)⟩]).2.1 (1/2) hmem
  · exact (safe_request_pacing (⟨3/10, 0⟩ : ClockState)
      [⟨0, HttpResp.ok (42 : Nat)⟩]).2.2 (by norm_num [pacingGap]) (by simp)

/-- C10: the `last_request` field is rewritten only by a successful
response; a run that returns `None` (error) or never finishes (429 chain)
leaves it exactly as it was, and a successful run sets it to the clock
time of the success. -/
theorem last_request_only_on_success {β : Type} (s : ClockState)
    (trace : List (Attempt β)) :
    (safe_request_run s trace).state.last_request =
      if (safe_request_run s trace).result.isSome
      then (safe_request_run s trace).state.now
      else s.last_request := by
  induction trace generalizing s with
  | nil => simp [safe_request_run]
  | cons a rest ih =>
      rcases a with ⟨lat, resp⟩
      cases resp with
      | ok b => simp [safe_request_run]
      | status429 =>
          simp only [safe_request_run]
          exact ih _
      | errResp m => simp [safe_request_run]

/-! ## kalshi_simple_dashboard.py: page-size clamping -/

/-- Query parameters built by `SimpleKalshiClient.get_markets`, from
`params = {'limit': min(limit, 100), 'status': 'open'}`. -/
structure MarketsParams where
  limit : Nat
  status : String
deriving Repr, DecidableEq

/-- Query parameters built by `SimpleKalshiClient.get_trades`, from
`params = {'limit': min(limit, 50)}`. -/
structure TradesParams where
  limit : Nat
deriving Repr, DecidableEq

/-- Params sent by the dashboard `get_markets` for a caller limit. -/
def get_markets_params (limit : Nat) : MarketsParams :=
  ⟨min limit 100, "open"⟩

/-- Params sent by the dashboard `get_trades` for a caller limit. -/
def get_trades_params (limit : Nat) : TradesParams :=
  ⟨min limit 50⟩

/-- C9: the dashboard clamps page sizes client-side: the limit sent by
`get_markets` never exceeds 100 and the one sent by `get_trades` never
exceeds 50, while limits already within the cap pass through unchanged
(so larger requests are silently reduced). -/
theorem params_clamped (l : Nat) :
    (get_markets_params l).limit ≤ 100 ∧
      (get_trades_params l).limit ≤ 50 ∧
      (l ≤ 100 → (get_markets_params l).limit = l) ∧
      (l ≤ 50 → (get_trades_params l).limit = l) ∧
      (get_markets_params l).status = "open" := by
  refine ⟨Nat.min_le_right l 100, Nat.min_le_right l 50, ?_, ?_, rfl⟩ <;>
    intro h <;> simp [get_markets_params, get_trades_params, Nat.min_eq_left h]

/-- Witness for C9 at limit 30 (within both caps). -/
theorem params_clamped_witness :
    (get_markets_params 30).limit ≤ 100 ∧
      (get_trades_params 30).limit ≤ 50 ∧
      (get_markets_params 30).limit = 30 ∧
      (get_trades_params 30).limit = 30 ∧
      (get_markets_params 30).status = "open" := by
  obtain ⟨h1, h2, h3, h4, h5⟩ := params_clamped 30
  exact ⟨h1, h2, h3 (by decide), h4 (by decide), h5⟩

end Dashboard

namespace Kalshi

/-! ## kalshi_complete.py: KalshiClient.get and the single-fetch accessors -/

/-- Outcome of the single HTTP attempt inside `KalshiClient.get`: either
a parsed JSON body, or a `requests.exceptions.RequestException` (transport
failure, timeout, or an HTTP error status raised by `raise_for_status`)
carrying its message. -/
inductive GetResult (β : Type) where
  | success (body : β)
  | failure (msg : String)
deriving Repr, DecidableEq

/-- Embedding of `KalshiClient.get`: on success return the body; on any
`RequestException` print one error line and return `None`.  The second
component collects the error lines printed. -/
def get {β : Type} (r : GetResult β) : Option β × List String :=
  match r with
  | GetResult.success b => (some b, [])
  | GetResult.failure m => (none, ["API Error: " ++ m])

/-- JSON body of the single-market endpoint as read by `get_market`
(`data.get('market')`). -/
structure MarketResponse (β : Type) where
  market : Option β
deriving Repr, DecidableEq

/-- Embedding of `KalshiClient.get_market`:
`return data.get('market') if data else None`. -/
def get_market {β : Type} (r : GetResult (MarketResponse β)) :
    Option β × List String :=
  let o := get r
  (o.1.bind MarketResponse.market, o.2)

/-- An orderbook per the data model: best bids and a list of
(price, contract-count) levels. -/
structure Orderbook where
  yes_bid : Nat
  no_bid : Nat
  bids : List (Nat × Nat)
deriving Repr, DecidableEq

/-- JSON body of the orderbook endpoint as read by `get_orderbook`
(`data.get('orderbook')`). -/
structure OrderbookResponse where
  orderbook : Option Orderbook
deriving Repr, DecidableEq

/-- The request `KalshiClient.get_orderbook` issues: the endpoint
f-string and the params dict `{'depth': depth}`. -/
structure OrderbookRequest where
  endpoint : String
  depth : Nat
deriving Repr, DecidableEq

/-- Request construction in `get_orderbook`. -/
def orderbook_request (ticker : String) (depth : Nat) : OrderbookRequest :=
  ⟨"/markets/" ++ ticker ++ "/orderbook", depth⟩

/-- Embedding of `KalshiClient.get_orderbook`: build the request, issue
it through `get` against a server, and
`return data.get('orderbook') if data else None`. -/
def get_orderbook (server : OrderbookRequest → GetResult OrderbookResponse)
    (ticker : String) (depth : Nat) : Option Orderbook × List String :=
  let o := get (server (orderbook_request ticker depth))
  (o.1.bind OrderbookResponse.orderbook, o.2)

/-- JSON body of the series listing endpoint as read by `get_series`
with no ticker (`data.get('series', [])`). -/
structure SeriesResponse (β : Type) where
  series : Option (List β)
deriving Repr, DecidableEq

/-- Embedding of the no-ticker branch of `KalshiClient.get_series`:
`return data.get('series', []) if data else []`. -/
def get_series_all {β : Type} (r : GetResult (SeriesResponse β)) :
    List β × List String :=
  let o := get r
  (match o.1 with
   | some resp => resp.series.getD []
   | none => [], o.2)

/-! ## kalshi_complete.py: the main entry point -/

/-- The four demo operations `main` runs once the key check passes, in
source order. -/
inductive DemoOp where
  | quickStart
  | marketAnalysis
  | seriesExplorer
  | visualization
deriving Repr, DecidableEq

/-- User-visible steps of `main`: the welcome banner, the
missing-API-key message, or the start of one demo operation. -/
inductive MainEv where
  | welcome
  | missingKeyMsg
  | runOp (op : DemoOp)
deriving Repr, DecidableEq

/-- Python truthiness of the `API_KEY` value read by `os.getenv`: absent
(`None`) and the empty string are falsy (`if not API_KEY:`). -/
def truthyKey : Option String → Bool
  | none => false
  | some k => !(k = "")

/-- The demo sequence attempted inside the try block of `main`. -/
def demoSequence : List MainEv :=
  [MainEv.runOp DemoOp.quickStart, MainEv.runOp DemoOp.marketAnalysis,
   MainEv.runOp DemoOp.seriesExplorer, MainEv.runOp DemoOp.visualization]

/-- Embedding of `main` up to the demo operations: it always prints the
welcome banner, then if the key is falsy it prints the missing-key
message and returns; otherwise it proceeds into the try block, whose
user-visible steps are abstracted by `demoEvents` (instantiated with
`demoSequence` when nothing raises). -/
def main_run (apiKey : Option String) (demoEvents : List MainEv) : List MainEv :=
  MainEv.welcome ::
    (if truthyKey apiKey then demoEvents else [MainEv.missingKeyMsg])

/-- C7: with no (or an empty) `KALSHI_API_KEY`, `main` prints the
missing-key message and returns immediately: whatever the demo sequence
would have done, none of the demo operations is attempted. -/
theorem main_aborts_without_key (k : Option String) (demoEvents : List MainEv)
    (hk : truthyKey k = false) :
    main_run k demoEvents = [MainEv.welcome, MainEv.missingKeyMsg] ∧
      ∀ op, MainEv.runOp op ∉ main_run k demoEvents := by
  constructor
  · simp [main_run, hk]
  · intro op
    simp [main_run, hk]

/-- Witness for C7: the key is absent and the full demo sequence is what
would have run; the quick-start operation is not attempted. -/
theorem main_aborts_without_key_witness :
    main_run none demoSequence = [MainEv.welcome, MainEv.missingKeyMsg] ∧
      MainEv.runOp DemoOp.quickStart ∉ main_run none demoSequence := by
  exact ⟨(main_aborts_without_key none demoSequence rfl).1,
    (main_aborts_without_key none demoSequence rfl).2 DemoOp.quickStart⟩

/-- C6: `get_orderbook` sends the caller's depth as the `depth` query
parameter and passes the server's orderbook object through unmodified:
when the server answers with an orderbook, the caller receives exactly
that object, its bid-level list neither truncated nor padded. -/
theorem get_orderbook_depth_passthrough
    (server : OrderbookRequest → GetResult OrderbookResponse)
    (ticker : String) (depth : Nat) (ob : Orderbook)
    (hs : server (orderbook_request ticker depth) =
      GetResult.success ⟨some ob⟩) :
    (orderbook_request ticker depth).depth = depth ∧
      (get_orderbook server ticker depth).1 = some ob ∧
      (get_orderbook server ticker depth).1.map (fun o => o.bids.length) =
        some ob.bids.length := by
  refine ⟨rfl, ?_, ?_⟩ <;> simp [get_orderbook, hs, get]

/-- Witness for C6: a server answering a depth-3 request with a
two-level book; the client returns the two levels as-is. -/
theorem get_orderbook_depth_passthrough_witness :
    (orderbook_request "ABC" 3).depth = 3 ∧
      (get_orderbook (fun _ => GetResult.success ⟨some ⟨63, 37, [(63, 10), (62, 5)]⟩⟩)
        "ABC" 3).1 = some ⟨63, 37, [(63, 10), (62, 5)]⟩ ∧
      (get_orderbook (fun _ => GetResult.success ⟨some ⟨63, 37, [(63, 10), (62, 5)]⟩⟩)
        "ABC" 3).1.map (fun o => o.bids.length) =
        some (⟨63, 37, [(63, 10), (62, 5)]⟩ : Orderbook).bids.length := by
  exact get_orderbook_depth_passthrough
    (fun _ => GetResult.success ⟨some ⟨63, 37, [(63, 10), (62, 5)]⟩⟩) "ABC" 3
    ⟨63, 37, [(63, 10), (62, 5)]⟩ rfl

/-- C5: every transport/HTTP error is caught at the client boundary,
reported to the user-facing surface exactly once, and converted to a
null/empty result, in both clients: `get` prints one line and returns
`None`; `get_market`, `get_orderbook` and `get_series` therefore return
null/empty with exactly one report; the dashboard `safe_request` posts
one `st.error` and returns `None`, and the call still returns normally
(no exception escapes to the caller). -/
theorem errors_nonfatal {β : Type} (m : String) (s : Dashboard.ClockState)
    (lat : ℚ) (rest : List (Dashboard.Attempt β)) :
    get (GetResult.failure m : GetResult β) = (none, ["API Error: " ++ m]) ∧
      (get_market (GetResult.failure m : GetResult (MarketResponse β))).1 =
        none ∧
      (get_market (GetResult.failure m : GetResult (MarketResponse β))).2.length
        = 1 ∧
      (get_orderbook (fun _ => GetResult.failure m) "T" 10).1 = none ∧
      (get_orderbook (fun _ => GetResult.failure m) "T" 10).2.length = 1 ∧
      (get_series_all (GetResult.failure m : GetResult (SeriesResponse β))).1 =
        [] ∧
      (get_series_all (GetResult.failure m : GetResult (SeriesResponse β))).2.length
        = 1 ∧
      (Dashboard.safe_request_run s
        (⟨lat, Dashboard.HttpResp.errResp m⟩ :: rest)).result = none ∧
      (Dashboard.safe_request_run s
        (⟨lat, Dashboard.HttpResp.errResp m⟩ :: rest)).finished = true ∧
      Dashboard.errorCount (Dashboard.safe_request_run s
        (⟨lat, Dashboard.HttpResp.errResp m⟩ :: rest)).events = 1 := by
  refine ⟨rfl, rfl, rfl, ?_, ?_, rfl, rfl, ?_, ?_, ?_⟩
  · simp [get_orderbook, get]
  · simp [get_orderbook, get]
  · simp [Dashboard.safe_request_run]
  · simp [Dashboard.safe_request_run]
  · simp only [Dashboard.safe_request_run, Dashboard.errorCount]
    split_ifs <;> simp [List.countP_append, List.countP_cons]

end Kalshi
